import Mathlib

/-!
Verification development for the image-to-video pipeline
(`script.js`, `mixer.js` source in `part_000`, `app.js`).

The JavaScript source is shallowly embedded:
pure string processing becomes Lean functions on `String` / `List Char`;
JavaScript numbers used for progress percentages and durations are modelled
as `ℚ`; integer millisecond arithmetic as `ℤ`; `NaN`-producing operations
(`parseInt` on garbage) return `Option`; code that can throw returns
`Except String`.  The side-effecting pipeline orchestrators
(`createStoryVideo`, `createMixedVideo`, the socket handlers of `app.js`)
are embedded as trace-producing functions: the filesystem contents and the
success or failure of each external ffmpeg/ffprobe invocation are supplied
by an environment record, and the function returns the ordered list of
observable actions (progress events, external calls, directory removals)
together with the final outcome.
-/

/-! ### Character classes (JavaScript semantics) -/

/-- JavaScript `\d` character class: exactly the ASCII digits `0-9`. -/
def isDigitChar (c : Char) : Bool :=
  decide (48 ≤ c.toNat) && decide (c.toNat ≤ 57)

/-- JavaScript `\s` character class / `String.prototype.trim` whitespace set:
space, tab, LF, VT, FF, CR, NBSP, and the Unicode space separators. -/
def isJsWhitespace (c : Char) : Bool :=
  decide (c.toNat = 32) || decide (c.toNat = 9) || decide (c.toNat = 10) ||
  decide (c.toNat = 11) || decide (c.toNat = 12) || decide (c.toNat = 13) ||
  decide (c.toNat = 160) || decide (c.toNat = 5760) ||
  (decide (8192 ≤ c.toNat) && decide (c.toNat ≤ 8202)) ||
  decide (c.toNat = 8232) || decide (c.toNat = 8233) || decide (c.toNat = 8239) ||
  decide (c.toNat = 8287) || decide (c.toNat = 12288) || decide (c.toNat = 65279)

/-- The split class of `split(/[:,]/)` in `srtTimeToMs`. -/
def isColonComma (c : Char) : Bool := c == ':' || c == ','

/-! ### Generic JS string helpers -/

/-- `String.prototype.split` with a single-character separator class:
splits at every occurrence, keeping empty pieces. -/
def jsSplitAux (p : Char → Bool) : List Char → List Char → List (List Char)
  | [], acc => [acc.reverse]
  | c :: cs, acc =>
    if p c then acc.reverse :: jsSplitAux p cs []
    else jsSplitAux p cs (c :: acc)

def jsSplit (p : Char → Bool) (cs : List Char) : List (List Char) :=
  jsSplitAux p cs []

/-- `String.prototype.replace(c, d)` with one-character pattern:
replaces only the first occurrence. -/
def jsReplaceFirst (c d : Char) : List Char → List Char
  | [] => []
  | x :: xs => if x = c then d :: xs else x :: jsReplaceFirst c d xs

/-- `String.prototype.trim`. -/
def jsTrim (s : String) : List Char :=
  ((s.data.dropWhile isJsWhitespace).reverse.dropWhile isJsWhitespace).reverse

/-- Value of a list of decimal digit characters. -/
def valOfDigits (ds : List Char) : ℕ :=
  ds.foldl (fun acc c => acc * 10 + (c.toNat - 48)) 0

/-- The longest digit prefix of `cs`, as a number; `none` when there is no
leading digit (`parseInt` would give `NaN`). -/
def digitsHeadVal (cs : List Char) : Option ℕ :=
  let ds := cs.takeWhile isDigitChar
  if ds.isEmpty then none else some (valOfDigits ds)

/-- JavaScript `parseInt` (radix 10): skip leading whitespace, optional
sign, then the longest digit run; `NaN` (= `none`) if no digits follow. -/
def jsParseInt (cs : List Char) : Option ℤ :=
  let cs1 := cs.dropWhile isJsWhitespace
  match cs1 with
  | [] => none
  | c :: rest =>
    if c = '-' then (digitsHeadVal rest).map (fun n => -(n : ℤ))
    else if c = '+' then (digitsHeadVal rest).map (fun n => (n : ℤ))
    else (digitsHeadVal (c :: rest)).map (fun n => (n : ℤ))

/-! ### `srtTimeToMs` (script.js lines 37-45) -/

/-- `parts[i]` followed by `parseInt`: an out-of-range index is JavaScript
`undefined`, and `parseInt(undefined)` is `NaN` (= `none`). -/
def partToInt (parts : List (List Char)) (i : ℕ) : Option ℤ :=
  match parts.get? i with
  | some p => jsParseInt p
  | none => none

/-- `srtTimeToMs` from script.js: split on `[:,]` and combine the first
four fields with the fixed multipliers.  A missing or unparsable field
makes the JavaScript result `NaN`, modelled as `none`. -/
def srtTimeToMs (timeStr : String) : Option ℤ := do
  let parts := jsSplit isColonComma timeStr.data
  let a ← partToInt parts 0
  let b ← partToInt parts 1
  let c ← partToInt parts 2
  let d ← partToInt parts 3
  pure (a * 3600000 + b * 60000 + c * 1000 + d)

/-! ### The timestamp regex of `parseSRT` (script.js line 15)

`/(\d{1,2}:\d{2}:\d{2}[.,]\d{3}) --> (\d{1,2}:\d{2}:\d{2}[.,]\d{3})/`,
searched (unanchored) inside the block's second line.  The only
backtracking point of the pattern is the greedy `\d{1,2}`; at a fixed
start position the one-digit alternative requires the second character to
be `:`, which is impossible precisely when the two-digit alternative was
attempted, so matching at a position is deterministic. -/

/-- Match `:\d{2}:\d{2}[.,]\d{3}` and return (consumed chars, rest). -/
def matchTsTail : List Char → Option (List Char × List Char)
  | ':' :: m1 :: m2 :: ':' :: s1 :: s2 :: sep :: x1 :: x2 :: x3 :: rest =>
    if isDigitChar m1 && isDigitChar m2 && isDigitChar s1 && isDigitChar s2 &&
       (sep = '.' || sep = ',') && isDigitChar x1 && isDigitChar x2 && isDigitChar x3
    then some ([':', m1, m2, ':', s1, s2, sep, x1, x2, x3], rest)
    else none
  | _ => none

/-- Match one capture group `\d{1,2}:\d{2}:\d{2}[.,]\d{3}` at the current
position (greedy hour, as the regex engine does). -/
def matchTsGroup : List Char → Option (List Char × List Char)
  | c0 :: c1 :: rest =>
    if isDigitChar c0 then
      if isDigitChar c1 then
        (matchTsTail rest).map (fun pr => (c0 :: c1 :: pr.1, pr.2))
      else
        (matchTsTail (c1 :: rest)).map (fun pr => (c0 :: pr.1, pr.2))
    else none
  | _ => none

/-- Match the whole pattern `group --> group` at the current position,
returning the two captured groups. -/
def matchTsAt (cs : List Char) : Option (List Char × List Char) :=
  match matchTsGroup cs with
  | some (g1, r1) =>
    match r1 with
    | ' ' :: '-' :: '-' :: '>' :: ' ' :: r2 =>
      match matchTsGroup r2 with
      | some (g2, _) => some (g1, g2)
      | none => none
    | _ => none
  | none => none

/-- Unanchored regex search: first position where the pattern matches,
exactly like `String.prototype.match` without anchors. -/
def findTsMatch : List Char → Option (List Char × List Char)
  | [] => none
  | c :: rest =>
    match matchTsAt (c :: rest) with
    | some r => some r
    | none => findTsMatch rest

/-! ### Block splitting (`data.trim().split(/\n\s*\n/)`) -/

/-- Index of the last `\n` in a list (used for the greedy `\s*` of the
block separator regex). -/
def lastNewlineIdx (ws : List Char) : Option ℕ :=
  (ws.foldl (fun st c =>
    match st with
    | (i, best) => (i + 1, if c = '\n' then some i else best)) ((0 : ℕ), none)).2

/-- Greedy match of `\s*\n` at the head of `rest` (which follows an
initial `\n` already consumed): returns how many characters the match
consumes, i.e. one past the last `\n` inside the maximal whitespace run. -/
def blankRunSkip (rest : List Char) : Option ℕ :=
  let ws := rest.takeWhile isJsWhitespace
  (lastNewlineIdx ws).map (· + 1)

/-- `split(/\n\s*\n/)`: scan left to right; at each `\n`, try to extend
greedily through whitespace to a later `\n`; on success cut a block and
resume after the match, as the JavaScript regex engine does.  The first
argument is fuel, always instantiated with the character count, so that
the recursion is structural and computes by reduction; the fuel-exhausted
branch is unreachable because every step consumes at least one character
per unit of fuel. -/
def splitBlocksFuel : ℕ → List Char → List Char → List (List Char)
  | _, [], acc => [acc.reverse]
  | 0, cs, acc => [acc.reverse ++ cs]
  | fuel + 1, '\n' :: rest, acc =>
    match blankRunSkip rest with
    | some n => acc.reverse :: splitBlocksFuel fuel (rest.drop n) []
    | none => splitBlocksFuel fuel rest ('\n' :: acc)
  | fuel + 1, c :: rest, acc => splitBlocksFuel fuel rest (c :: acc)

/-- The block list of `parseSRT`: `data.trim().split(/\n\s*\n/)`. -/
def blocksOf (data : String) : List (List Char) :=
  let t := jsTrim data
  splitBlocksFuel t.length t []

/-! ### `parseSRT` (script.js lines 8-26) -/

structure SRTSegment where
  startTime : String
  endTime : String
  text : String
deriving DecidableEq, Repr

/-- Processing of one block: split into lines, require at least two lines,
search line 1 for the timestamp pair; on success produce a segment whose
times have their first `.` replaced by `,` and whose text joins the
remaining lines. -/
def segOfBlock (block : List Char) : Option SRTSegment :=
  let lines := jsSplit (fun c => c == '\n') block
  if 2 ≤ lines.length then
    match lines.get? 1 with
    | some l1 =>
      match findTsMatch l1 with
      | some (g1, g2) =>
        some { startTime := String.mk (jsReplaceFirst '.' ',' g1)
               endTime := String.mk (jsReplaceFirst '.' ',' g2)
               text := String.mk (List.intercalate ['\n'] (lines.drop 2)) }
      | none => none
    | none => none
  else none

/-- The accumulator loop of `parseSRT`: push a segment for each block
whose second line matches, in order. -/
def parseSRTAux : List (List Char) → List SRTSegment → List SRTSegment
  | [], acc => acc.reverse
  | b :: bs, acc =>
    match segOfBlock b with
    | some s => parseSRTAux bs (s :: acc)
    | none => parseSRTAux bs acc

/-- `parseSRT` from script.js. -/
def parseSRT (data : String) : List SRTSegment :=
  parseSRTAux (blocksOf data) []

/-! ### Scene derivation: `srtToScenes` (script.js lines 50-67)

The filesystem read `fs.readdirSync(imageDir)` is supplied as the
`listing` parameter; the filter and the natural sort are embedded. -/

/-- The extension filter regex of srtToScenes, case-insensitive suffix
test for png, jpg, jpeg, webp. -/
def isImageName (f : String) : Bool :=
  let l := f.data.map Char.toLower
  ".png".data.isSuffixOf l || ".jpg".data.isSuffixOf l ||
  ".jpeg".data.isSuffixOf l || ".webp".data.isSuffixOf l

/-- Maximal same-class (digit / non-digit) chunks of a string, for the
numeric-aware comparison of `localeCompare(..., numeric, base)`. -/
def natChunks : List Char → List (List Char × Bool)
  | [] => []
  | c :: cs =>
    let ts := natChunks cs
    let d := isDigitChar c
    match ts with
    | (chunk, d2) :: rest =>
      if d = d2 then (c :: chunk, d) :: rest else ([c], d) :: ts
    | [] => [([c], d)]

/-- Case-insensitive lexicographic comparison of chunks
(model of sensitivity "base"). -/
def cmpCI : List Char → List Char → Ordering
  | [], [] => .eq
  | [], _ :: _ => .lt
  | _ :: _, [] => .gt
  | a :: as, b :: bs =>
    (compare a.toLower.toNat b.toLower.toNat).then (cmpCI as bs)

/-- Chunkwise comparison: digit chunks compare by numeric value, mixed
chunks put numbers first, other chunks compare case-insensitively; ties
continue with the following chunks.  This models
`a.localeCompare(b, undefined, { numeric: true, sensitivity: "base" })`. -/
def natCompare : List (List Char × Bool) → List (List Char × Bool) → Ordering
  | [], [] => .eq
  | [], _ :: _ => .lt
  | _ :: _, [] => .gt
  | (a, da) :: as, (b, db) :: bs =>
    (if da && db then compare (valOfDigits a) (valOfDigits b)
     else if da then .lt
     else if db then .gt
     else cmpCI a b).then (natCompare as bs)

/-- Boolean "a sorts no later than b" for the sort comparator. -/
def naturalLE (a b : String) : Bool :=
  natCompare (natChunks a.data) (natChunks b.data) ≠ Ordering.gt

/-- Stable insertion sort with the natural comparator
(models `Array.prototype.sort` with the comparator of srtToScenes). -/
def insertNat (x : String) : List String → List String
  | [] => [x]
  | y :: ys => if naturalLE x y then x :: y :: ys else y :: insertNat x ys

def natSort : List String → List String
  | [] => []
  | x :: xs => insertNat x (natSort xs)

/-- The filtered, naturally sorted image list of srtToScenes. -/
def sortedImages (listing : List String) : List String :=
  natSort (listing.filter isImageName)

/-- Model of `path.join(a, b)` (normalisation is not modelled; no claim
depends on it). -/
def pathJoin (a b : String) : String := a ++ "/" ++ b

/-- Model of the TypeError raised by `path.join(imageDir, undefined)`. -/
def jsPathTypeError : String := "TypeError: path must be a string"

structure Scene where
  image : String
  start_ms : Option ℤ
  end_ms : Option ℤ
  text : String
deriving DecidableEq, Repr

/-- `images[index] || images[images.length - 1]`: an in-range, truthy
(non-empty) entry is used as is; otherwise the expression falls back to
the last entry, which is `undefined` (= `none`) when the list is empty. -/
def scenePick (images : List String) (index : ℕ) : Option String :=
  match images.get? index with
  | some s => if s = "" then images.getLast? else some s
  | none => images.getLast?

def sceneOfSeg (imageDir img : String) (item : SRTSegment) : Scene :=
  { image := pathJoin imageDir img
    start_ms := srtTimeToMs item.startTime
    end_ms := srtTimeToMs item.endTime
    text := item.text }

/-- The `srtData.map((item, index) => ...)` body of srtToScenes; passing
`undefined` to `path.join` aborts the whole map with a TypeError, which
the embedding surfaces as `Except.error`. -/
def scenesGo (images : List String) (imageDir : String) :
    ℕ → List SRTSegment → Except String (List Scene)
  | _, [] => .ok []
  | index, item :: rest =>
    match scenePick images index with
    | none => .error jsPathTypeError
    | some img =>
      match scenesGo images imageDir (index + 1) rest with
      | .ok scs => .ok (sceneOfSeg imageDir img item :: scs)
      | .error e => .error e

/-- `srtToScenes` from script.js, with the directory listing supplied as
a parameter. -/
def srtToScenes (srtContent : String) (listing : List String) (imageDir : String) :
    Except String (List Scene) :=
  scenesGo (sortedImages listing) imageDir 0 (parseSRT srtContent)

/-! ### Clip synthesis filters: `createImageClip` (script.js lines 72-155) -/

def FPS : ℕ := 60
def CROSSFADE_DURATION : ℚ := 3 / 10
def ZOOM_RATE : ℚ := 2 / 25

/-- `Math.max(0, duration - CROSSFADE_DURATION)` of script.js line 102. -/
def fadeOutStartOf (duration : ℚ) : ℚ := max 0 (duration - CROSSFADE_DURATION)

/-- The video filters assembled by createImageClip, in order. -/
inductive VFilter
  | scaleCrop (w h : ℕ)
  | zoompan (endZoom : ℚ) (totalFrames : ℤ) (zoomIncrement : ℚ)
  | fadeIn (st d : ℚ)
  | fadeOut (st d : ℚ)
deriving DecidableEq, Repr

/-- The filter chain of createImageClip for the scene at ordinal `index`
out of `totalScenes`, with float duration `duration` seconds: scale/crop,
zoompan with a two-second safety buffer of extra frames, then fade-in
unless first and fade-out unless last (JavaScript computes
`totalScenes - 1` in ℤ). -/
def clipFilters (index totalScenes : ℕ) (duration : ℚ) : List VFilter :=
  let endZoom := 1 + duration * ZOOM_RATE
  let totalFrames := ⌈(duration + 2) * (FPS : ℚ)⌉
  let zoomIncrement := (endZoom - 1) / (duration * (FPS : ℚ))
  [VFilter.scaleCrop 1080 1920, VFilter.zoompan endZoom totalFrames zoomIncrement] ++
  (if 0 < index then [VFilter.fadeIn 0 CROSSFADE_DURATION] else []) ++
  (if (index : ℤ) < (totalScenes : ℤ) - 1 then
    [VFilter.fadeOut (fadeOutStartOf duration) CROSSFADE_DURATION] else [])

/-! ### Orchestration traces

`createStoryVideo` / `createMixedVideo` are embedded as functions from an
environment (filesystem contents, success or failure of each external
ffmpeg/ffprobe process) to the ordered list of observable actions plus the
final outcome of the returned promise. -/

/-- One `onProgress` payload: `{status, message, progress}`; the parsing
and error payloads of script.js carry no `progress` field (`none`). -/
structure Progress where
  status : String
  message : String
  progress : Option ℚ
deriving DecidableEq, Repr

/-- The ffmpeg invocation assembled by createMixedVideo. -/
structure MixCommand where
  visualPath : String
  visualInputOpts : List String
  mainAudioPath : String
  bgAudioPath : String
  bgInputOpts : List String
  bgVolume : ℚ
  durationLimit : ℚ
  framerate : ℤ
  shortestFlag : Bool
  outputPath : String
deriving DecidableEq, Repr

/-- External encoder/prober process invocations, in the order the
pipelines issue them. -/
inductive ExtCall
  | clipRender (index : ℕ) (image : String)
  | concat (clipCount : ℕ)
  | probeVideo
  | mux
  | probeMainAudio
  | mixRender (cmd : MixCommand)
deriving DecidableEq, Repr

/-- Observable actions of a pipeline run. -/
inductive Act
  | emit (p : Progress)
  | call (c : ExtCall)
  | rmTemp
deriving DecidableEq, Repr

/-- Environment of a story run: directory listing of `imageDir`,
`fs.existsSync`, and the verdict of each external process. -/
structure StoryEnv where
  listing : List String
  fileExists : String → Bool
  clipOk : ℕ → Bool
  concatOk : Bool
  probeOk : Bool
  muxOk : Bool

/-- `createImageClip` (script.js lines 72-155): reject without any
external call when the source image is missing, otherwise run ffmpeg. -/
def createImageClip (env : StoryEnv) (scene : Scene) (index : ℕ) :
    List Act × Except String Unit :=
  if env.fileExists scene.image = false then
    ([], .error ("Image not found: " ++ scene.image))
  else
    ([Act.call (ExtCall.clipRender index scene.image)],
     if env.clipOk index then .ok () else .error "ffmpeg clip error")

/-- The clip loop of createStoryVideo (lines 280-288): emit the clipping
progress event, render, stop at the first failure. -/
def clipLoop (env : StoryEnv) (total : ℕ) :
    ℕ → List Scene → List Act × Except String Unit
  | _, [] => ([], .ok ())
  | i, scene :: rest =>
    let e1 := Act.emit
      { status := "clipping"
        message := "Creating clip " ++ toString (i + 1) ++ "/" ++ toString total
        progress := some ((i : ℚ) / (total : ℚ) * 50) }
    let (tr, r) := createImageClip env scene i
    match r with
    | .error e => (e1 :: tr, .error e)
    | .ok _ =>
      let (tr2, r2) := clipLoop env total (i + 1) rest
      (e1 :: tr ++ tr2, r2)

/-- The body of createStoryVideo's `try` block up to and including the
mux stage (lines 272-305): parse/derive, render each clip, emit the
concatenating event and concatenate, emit the audio event, check the
narration file, probe the concatenated video, mux. -/
def storyBody (srtContent imageDir audioPath : String) (env : StoryEnv) :
    List Act × Except String Unit :=
  let e0 := Act.emit { status := "parsing", message := "Parsing SRT and images...", progress := none }
  match srtToScenes srtContent env.listing imageDir with
  | .error e => ([e0], .error e)
  | .ok scenes =>
    let (tr1, r1) := clipLoop env scenes.length 0 scenes
    match r1 with
    | .error e => (e0 :: tr1, .error e)
    | .ok _ =>
      let e2 := Act.emit { status := "concatenating", message := "Merging clips", progress := some 60 }
      let c2 := Act.call (ExtCall.concat scenes.length)
      if env.concatOk = false then
        (e0 :: tr1 ++ [e2, c2], .error "ffmpeg concat error")
      else
        let e3 := Act.emit { status := "audio", message := "Adding audio...", progress := some 80 }
        if env.fileExists audioPath = false then
          (e0 :: tr1 ++ [e2, c2, e3], .error ("Audio file not found: " ++ audioPath))
        else
          let p := Act.call ExtCall.probeVideo
          if env.probeOk = false then
            (e0 :: tr1 ++ [e2, c2, e3, p], .error "ffprobe error")
          else
            let m := Act.call ExtCall.mux
            if env.muxOk = false then
              (e0 :: tr1 ++ [e2, c2, e3, p, m], .error "ffmpeg mux error")
            else
              (e0 :: tr1 ++ [e2, c2, e3, p, m], .ok ())

/-- `createStoryVideo` (script.js lines 255-325).  On success the happy
path emits the cleanup event, removes the temp dir, and emits the done
event; the catch block emits the error event and then removes the temp
dir (the `existsSync` guard is true because the directory was created at
entry and not yet removed). -/
def runStory (srtContent imageDir audioPath : String) (env : StoryEnv) :
    List Act × Except String Unit :=
  let (tr, r) := storyBody srtContent imageDir audioPath env
  match r with
  | .ok _ =>
    (tr ++ [Act.emit { status := "cleanup", message := "Cleaning up...", progress := some 95 },
            Act.rmTemp,
            Act.emit { status := "done", message := "Video created successfully!", progress := some 100 }],
     .ok ())
  | .error e =>
    (tr ++ [Act.emit { status := "error", message := e, progress := none },
            Act.rmTemp],
     .error e)

/-! ### Mixed-media pipeline: `createMixedVideo` (part_000 lines 9-107) -/

/-- The image test regex of createMixedVideo
(`/\.(jpg|jpeg|png|bmp|gif|webp)$/i`). -/
def isImageInput (p : String) : Bool :=
  let l := p.data.map Char.toLower
  ".jpg".data.isSuffixOf l || ".jpeg".data.isSuffixOf l || ".png".data.isSuffixOf l ||
  ".bmp".data.isSuffixOf l || ".gif".data.isSuffixOf l || ".webp".data.isSuffixOf l

structure MixedOptions where
  inputPath : String
  mainAudioPath : String
  bgAudioPath : String
  outputPath : String
  bgVolume : ℚ
  framerate : ℤ
deriving Repr

/-- The ffmpeg command createMixedVideo builds once the probed duration
`d` is known: still images loop with `-loop 1`, videos with
`-stream_loop -1`; the background audio always loops; the output carries
both `-shortest` and the explicit `-t d`. -/
def mixCommandOf (o : MixedOptions) (d : ℚ) : MixCommand :=
  { visualPath := o.inputPath
    visualInputOpts := if isImageInput o.inputPath then ["-loop", "1"] else ["-stream_loop", "-1"]
    mainAudioPath := o.mainAudioPath
    bgAudioPath := o.bgAudioPath
    bgInputOpts := ["-stream_loop", "-1"]
    bgVolume := o.bgVolume
    durationLimit := d
    framerate := o.framerate
    shortestFlag := true
    outputPath := o.outputPath }

/-- Environment of a mixed run: the probed duration of the main audio
(`none` = probe failure), the percent values fluent-ffmpeg reports during
rendering (`none` = a tick without a percent field), and the encoder
verdict. -/
structure MixedEnv where
  probeResult : Option ℚ
  reported : List (Option ℚ)
  renderOk : Bool

/-- The rendering progress events: a tick is forwarded only when
`progress.percent` is truthy (present and nonzero), scaled as
`10 + percent * 0.85`, with the rounded raw percent in the message. -/
def renderEvents (reported : List (Option ℚ)) : List Act :=
  reported.filterMap (fun po =>
    match po with
    | some p =>
      if p = 0 then none
      else some (Act.emit
        { status := "rendering"
          message := "Rendering mixed video... " ++ toString (round p) ++ "%"
          progress := some (10 + p * (85 / 100)) })
    | none => none)

/-- `createMixedVideo` (part_000): probe the main narration track first;
on probe failure reject with no event; otherwise emit the mixing event,
run the single ffmpeg mix/encode invocation, forwarding its progress
ticks, and emit the done event at 100 on success. -/
def runMixed (o : MixedOptions) (env : MixedEnv) : List Act × Except String String :=
  match env.probeResult with
  | none => ([Act.call ExtCall.probeMainAudio], .error "Failed to probe main audio")
  | some d =>
    let cmd := mixCommandOf o d
    let pre := Act.call ExtCall.probeMainAudio ::
      Act.emit { status := "mixing", message := "Analyzing media...", progress := some 10 } ::
      Act.call (ExtCall.mixRender cmd) :: renderEvents env.reported
    if env.renderOk then
      (pre ++ [Act.emit { status := "done", message := "Mixed video created successfully!", progress := some 100 }],
       .ok o.outputPath)
    else
      (pre, .error "FFmpeg processing failed")

/-! ### Socket handlers of app.js

The upload-session directory removal (`fs.rmSync(sessionDir, ...)`) is the
action of interest: app.js performs it only after the `finished` event of
a successful run; the catch block emits `error` and leaves the session
directory in place. -/

/-- Observable socket-handler actions: events emitted on the socket plus
the removal of the session's upload directory. -/
inductive SAct
  | progress (p : Progress)
  | finished (url filename : String)
  | errorEvt (message : String)
  | rmSession
deriving DecidableEq, Repr

/-- Environment of the `start-generation` handler: existence of the asset
directories, their listings, the uploaded subtitle text, the story
environment, and `Date.now()`. -/
structure SessionEnv where
  audioDirExists : Bool
  srtDirExists : Bool
  imageDirExists : Bool
  audioFiles : List String
  srtFiles : List String
  srtContent : String
  story : StoryEnv
  timestamp : ℕ

def UPLOADS_DIR : String := "uploads"

def sessionDirOf (sessionId : String) : String := pathJoin UPLOADS_DIR sessionId

/-- Forward the pipeline's `onProgress` payloads to the socket; the other
trace actions (external calls, temp-dir removal) are not socket events. -/
def fwdProgress (tr : List Act) : List SAct :=
  tr.filterMap (fun a =>
    match a with
    | Act.emit p => some (SAct.progress p)
    | _ => none)

/-- The `start-generation` handler (app.js lines 77-136).  Checks the
asset directories, runs `createStoryVideo` forwarding progress, and on
success emits `finished` and then removes the session upload directory;
any thrown error instead becomes a single `error` event with the session
directory left in place. -/
def storyHandler (sessionId : String) (env : SessionEnv) : List SAct :=
  if env.audioDirExists = false then
    [SAct.errorEvt "Audio directory not found. Upload may have failed."]
  else if env.srtDirExists = false then
    [SAct.errorEvt "SRT directory not found. Upload may have failed."]
  else if env.imageDirExists = false then
    [SAct.errorEvt "Images directory not found. Upload may have failed."]
  else if env.audioFiles.length = 0 ∨ env.srtFiles.length = 0 then
    [SAct.errorEvt "Missing audio or SRT file"]
  else
    let sessionDir := sessionDirOf sessionId
    let audioPath := pathJoin (pathJoin sessionDir "audio") (env.audioFiles.headD "")
    let imageDir := pathJoin sessionDir "images"
    let outputName := "video_" ++ sessionId ++ "_" ++ toString env.timestamp ++ ".mp4"
    let start := SAct.progress { status := "starting", message := "Initializing...", progress := none }
    let (tr, r) := runStory env.srtContent imageDir audioPath env.story
    match r with
    | .ok _ =>
      start :: fwdProgress tr ++
        [SAct.finished ("/output/" ++ outputName) outputName, SAct.rmSession]
    | .error e =>
      start :: fwdProgress tr ++ [SAct.errorEvt e]

/-- Environment of the `start-mixed-generation` handler. -/
structure MixedSessionEnv where
  audioDirExists : Bool
  bgAudioDirExists : Bool
  visualDirExists : Bool
  audioFiles : List String
  bgFiles : List String
  visualFiles : List String
  bgVolumeParsed : Option ℚ
  framerateParsed : Option ℤ
  mixed : MixedEnv
  timestamp : ℕ

/-- `parseFloat(bgVolume) || 0.3`: `NaN` (= `none`) and `0` are falsy. -/
def effBgVolume (v : Option ℚ) : ℚ :=
  match v with
  | none => 3 / 10
  | some x => if x = 0 then 3 / 10 else x

/-- `parseInt(framerate) || 30`. -/
def effFramerate (v : Option ℤ) : ℤ :=
  match v with
  | none => 30
  | some x => if x = 0 then 30 else x

/-- The `start-mixed-generation` handler (app.js lines 138-190). -/
def mixedHandler (sessionId : String) (env : MixedSessionEnv) : List SAct :=
  if env.audioDirExists = false ∨ env.audioFiles.length = 0 then
    [SAct.errorEvt "Main audio missing"]
  else if env.bgAudioDirExists = false ∨ env.bgFiles.length = 0 then
    [SAct.errorEvt "Background audio missing"]
  else if env.visualDirExists = false ∨ env.visualFiles.length = 0 then
    [SAct.errorEvt "Visual (Image/Video) missing"]
  else
    let sessionDir := sessionDirOf sessionId
    let outputName := "mixed_" ++ sessionId ++ "_" ++ toString env.timestamp ++ ".mp4"
    let opts : MixedOptions :=
      { inputPath := pathJoin (pathJoin sessionDir "visual") (env.visualFiles.headD "")
        mainAudioPath := pathJoin (pathJoin sessionDir "audio") (env.audioFiles.headD "")
        bgAudioPath := pathJoin (pathJoin sessionDir "bgAudio") (env.bgFiles.headD "")
        outputPath := pathJoin "output" outputName
        bgVolume := effBgVolume env.bgVolumeParsed
        framerate := effFramerate env.framerateParsed }
    let start := SAct.progress { status := "starting", message := "Initializing Mix...", progress := none }
    let (tr, r) := runMixed opts env.mixed
    match r with
    | .ok _ =>
      start :: fwdProgress tr ++
        [SAct.finished ("/output/" ++ outputName) outputName, SAct.rmSession]
    | .error e =>
      start :: fwdProgress tr ++ [SAct.errorEvt e]

/-! ### Derived observation functions and sample inputs -/

/-- The percent values carried by the progress events of a trace, in
emission order (events without a percent field are not counted). -/
def percentsOf (tr : List Act) : List ℚ :=
  tr.filterMap (fun a =>
    match a with
    | Act.emit p => p.progress
    | _ => none)

/-- The full percent schedule of a successful story run with `n` scenes:
one clipping event per scene at `i / n * 50`, then 60, 80, 95, 100. -/
def stdStoryPercents (n : ℕ) : List ℚ :=
  (List.range n).map (fun i : ℕ => (i : ℚ) / (n : ℚ) * 50) ++ [60, 80, 95, 100]

/-- The encoder-reported percents that pass the truthiness check
`if (progress.percent)` of createMixedVideo. -/
def truthyReported (reported : List (Option ℚ)) : List ℚ :=
  reported.filterMap (fun po =>
    match po with
    | some p => if p = 0 then none else some p
    | none => none)

/-- A story environment in which every file exists and every external
process succeeds. -/
def allOkStoryEnv : StoryEnv :=
  { listing := ["1.png"]
    fileExists := fun _ => true
    clipOk := fun _ => true
    concatOk := true
    probeOk := true
    muxOk := true }

/-- A one-block subtitle sample. -/
def srtOne : String := "1\n00:00:00,000 --> 00:00:02,000\nhi"

/-- Concrete mixed-media options. -/
def mixOpts0 : MixedOptions :=
  { inputPath := "visual.png"
    mainAudioPath := "main.mp3"
    bgAudioPath := "bg.mp3"
    outputPath := "out.mp4"
    bgVolume := 3 / 10
    framerate := 30 }

/-- A mixed environment whose encoder reports a 120 percent progress
tick (fluent-ffmpeg computes percent from a possibly wrong duration
estimate, so over-100 reports do occur). -/
def mixEnvBad : MixedEnv :=
  { probeResult := some 30
    reported := [some 120]
    renderOk := true }

/-- A mixed environment with a failed probe. -/
def mixEnvAllOk : MixedEnv :=
  { probeResult := some 30
    reported := [some 40, some 80]
    renderOk := true }

/-- A story session environment with all checks passing. -/
def sessionEnvOk : SessionEnv :=
  { audioDirExists := true
    srtDirExists := true
    imageDirExists := true
    audioFiles := ["a.mp3"]
    srtFiles := ["s.srt"]
    srtContent := srtOne
    story := allOkStoryEnv
    timestamp := 5 }

/-- A mixed session environment with all checks passing. -/
def mixedSessionEnvOk : MixedSessionEnv :=
  { audioDirExists := true
    bgAudioDirExists := true
    visualDirExists := true
    audioFiles := ["a.mp3"]
    bgFiles := ["b.mp3"]
    visualFiles := ["v.png"]
    bgVolumeParsed := some (1 / 2)
    framerateParsed := some 30
    mixed := mixEnvAllOk
    timestamp := 7 }

/-! ### Helper lemmas on character classes -/

lemma isDigitChar_val {c : Char} (h : isDigitChar c = true) :
    48 ≤ c.toNat ∧ c.toNat ≤ 57 := by
  simpa [isDigitChar, Bool.and_eq_true, decide_eq_true_eq] using h

/-- A digit character differs from any character whose digit test is
false (instantiated at literals via `decide`). -/
lemma digit_ne_lit {c : Char} (h : isDigitChar c = true) {d : Char}
    (hd : isDigitChar d = false) : c ≠ d := by
  intro e; subst e; rw [h] at hd; cases hd

lemma digit_not_colonComma {c : Char} (h : isDigitChar c = true) :
    isColonComma c = false := by
  have h1 : c ≠ ':' := digit_ne_lit h (by decide)
  have h2 : c ≠ ',' := digit_ne_lit h (by decide)
  simp [isColonComma, h1, h2]

lemma digit_not_ws {c : Char} (h : isDigitChar c = true) :
    isJsWhitespace c = false := by
  have hv := isDigitChar_val h
  simp only [isJsWhitespace, Bool.or_eq_false_iff, Bool.and_eq_false_iff,
    decide_eq_false_iff_not]
  omega

lemma takeWhile_of_all {p : Char → Bool} :
    ∀ {l : List Char}, (∀ c ∈ l, p c = true) → l.takeWhile p = l
  | [], _ => rfl
  | c :: cs, h => by
    have hc : p c = true := h c (List.mem_cons_self c cs)
    simp [List.takeWhile_cons, hc, takeWhile_of_all (fun x hx => h x (List.mem_cons_of_mem c hx))]

/-- `parseInt` on a nonempty all-digit string yields its decimal value. -/
lemma jsParseInt_digits {ds : List Char} (hne : ds ≠ [])
    (h : ∀ c ∈ ds, isDigitChar c = true) :
    jsParseInt ds = some (valOfDigits ds : ℤ) := by
  cases ds with
  | nil => exact absurd rfl hne
  | cons c cs =>
    have hc : isDigitChar c = true := h c (List.mem_cons_self c cs)
    have hcw : isJsWhitespace c = false := digit_not_ws hc
    have hminus : c ≠ '-' := digit_ne_lit hc (by decide)
    have hplus : c ≠ '+' := digit_ne_lit hc (by decide)
    have htake : (c :: cs).takeWhile isDigitChar = c :: cs := takeWhile_of_all h
    simp [jsParseInt, List.dropWhile_cons, hcw, hminus, hplus, digitsHeadVal, htake]

/-! ### Claim C8: timestamp conversion -/

lemma mem_pair_digit {c m1 m2 : Char} (h1 : isDigitChar m1 = true)
    (h2 : isDigitChar m2 = true) (hc : c ∈ [m1, m2]) : isDigitChar c = true := by
  rcases List.mem_cons.mp hc with rfl | hc2
  · exact h1
  · rcases List.mem_cons.mp hc2 with rfl | hc3
    · exact h2
    · exact absurd hc3 (List.not_mem_nil c)

lemma mem_triple_digit {c x1 x2 x3 : Char} (h1 : isDigitChar x1 = true)
    (h2 : isDigitChar x2 = true) (h3 : isDigitChar x3 = true)
    (hc : c ∈ [x1, x2, x3]) : isDigitChar c = true := by
  rcases List.mem_cons.mp hc with rfl | hc2
  · exact h1
  · exact mem_pair_digit h2 h3 hc2

/-- C8: for every timestamp string accepted by the parser's regex
(1-2 digit hours, 2-digit minutes and seconds, 3-digit millis, decimal
separator `.` or `,`), the string is indeed matched by the embedded
timestamp matcher, and `srtTimeToMs` applied to it (after the parser's
first-dot-to-comma normalisation) equals
hours * 3600000 + minutes * 60000 + seconds * 1000 + millis. -/
theorem claim8_time_conversion (hs : List Char) (m1 m2 s1 s2 x1 x2 x3 sep : Char)
    (hlen : hs.length = 1 ∨ hs.length = 2)
    (hhs : ∀ c ∈ hs, isDigitChar c = true)
    (hm1 : isDigitChar m1 = true) (hm2 : isDigitChar m2 = true)
    (hs1 : isDigitChar s1 = true) (hs2 : isDigitChar s2 = true)
    (hx1 : isDigitChar x1 = true) (hx2 : isDigitChar x2 = true)
    (hx3 : isDigitChar x3 = true)
    (hsep : sep = '.' ∨ sep = ',') :
    matchTsGroup (hs ++ ':' :: m1 :: m2 :: ':' :: s1 :: s2 :: sep :: [x1, x2, x3]) =
      some (hs ++ ':' :: m1 :: m2 :: ':' :: s1 :: s2 :: sep :: [x1, x2, x3], []) ∧
    srtTimeToMs (String.mk (jsReplaceFirst '.' ','
        (hs ++ ':' :: m1 :: m2 :: ':' :: s1 :: s2 :: sep :: [x1, x2, x3]))) =
      some ((valOfDigits hs : ℤ) * 3600000 + (valOfDigits [m1, m2] : ℤ) * 60000 +
            (valOfDigits [s1, s2] : ℤ) * 1000 + (valOfDigits [x1, x2, x3] : ℤ)) := by
  have hcT : isColonComma ':' = true := by decide
  have hmT : isColonComma ',' = true := by decide
  have hcd : isDigitChar ':' = false := by decide
  have hm1c := digit_not_colonComma hm1
  have hm2c := digit_not_colonComma hm2
  have hs1c := digit_not_colonComma hs1
  have hs2c := digit_not_colonComma hs2
  have hx1c := digit_not_colonComma hx1
  have hx2c := digit_not_colonComma hx2
  have hx3c := digit_not_colonComma hx3
  have hm1d : m1 ≠ '.' := digit_ne_lit hm1 (by decide)
  have hm2d : m2 ≠ '.' := digit_ne_lit hm2 (by decide)
  have hs1d : s1 ≠ '.' := digit_ne_lit hs1 (by decide)
  have hs2d : s2 ≠ '.' := digit_ne_lit hs2 (by decide)
  have hx1d : x1 ≠ '.' := digit_ne_lit hx1 (by decide)
  have hx2d : x2 ≠ '.' := digit_ne_lit hx2 (by decide)
  have hx3d : x3 ≠ '.' := digit_ne_lit hx3 (by decide)
  have pmm : jsParseInt [m1, m2] = some ((valOfDigits [m1, m2] : ℤ)) :=
    jsParseInt_digits (by simp) (fun c hc => mem_pair_digit hm1 hm2 hc)
  have pss : jsParseInt [s1, s2] = some ((valOfDigits [s1, s2] : ℤ)) :=
    jsParseInt_digits (by simp) (fun c hc => mem_pair_digit hs1 hs2 hc)
  have pxx : jsParseInt [x1, x2, x3] = some ((valOfDigits [x1, x2, x3] : ℤ)) :=
    jsParseInt_digits (by simp) (fun c hc => mem_triple_digit hx1 hx2 hx3 hc)
  obtain ⟨a, ha⟩ | ⟨a, b, hab⟩ :
      (∃ a, hs = [a]) ∨ (∃ a b, hs = [a, b]) := by
    rcases hlen with h1 | h2
    · cases hs with
      | nil => simp at h1
      | cons a t => cases t with
        | nil => exact Or.inl ⟨a, rfl⟩
        | cons b t2 => simp at h1
    · cases hs with
      | nil => simp at h2
      | cons a t => cases t with
        | nil => simp at h2
        | cons b t2 => cases t2 with
          | nil => exact Or.inr ⟨a, b, rfl⟩
          | cons c t3 => simp at h2
  · -- one-digit hour
    subst ha
    have had : isDigitChar a = true := hhs a (List.mem_cons_self a [])
    have hac := digit_not_colonComma had
    have hadot : a ≠ '.' := digit_ne_lit had (by decide)
    have pa : jsParseInt [a] = some ((valOfDigits [a] : ℤ)) :=
      jsParseInt_digits (by simp) (by intro c hc; rw [List.mem_singleton] at hc; subst hc; exact had)
    have hsplit : jsSplit isColonComma
        (a :: ':' :: m1 :: m2 :: ':' :: s1 :: s2 :: ',' :: [x1, x2, x3]) =
        [[a], [m1, m2], [s1, s2], [x1, x2, x3]] := by
      simp [jsSplit, jsSplitAux, hac, hm1c, hm2c, hs1c, hs2c, hx1c, hx2c, hx3c, hcT, hmT]
    have hrepl : jsReplaceFirst '.' ','
        ([a] ++ ':' :: m1 :: m2 :: ':' :: s1 :: s2 :: sep :: [x1, x2, x3]) =
        [a] ++ ':' :: m1 :: m2 :: ':' :: s1 :: s2 :: ',' :: [x1, x2, x3] := by
      rcases hsep with h | h <;> subst h <;>
        simp [jsReplaceFirst, hadot, hm1d, hm2d, hs1d, hs2d, hx1d, hx2d, hx3d]
    refine ⟨?_, ?_⟩
    · rcases hsep with h | h <;> subst h <;>
        simp [matchTsGroup, matchTsTail, had, hcd, hm1, hm2, hs1, hs2, hx1, hx2, hx3]
    · rw [hrepl]
      simp [srtTimeToMs, hsplit, partToInt, pa, pmm, pss, pxx]
  · -- two-digit hour
    subst hab
    have hadig : isDigitChar a = true := hhs a (by simp)
    have hbdig : isDigitChar b = true := hhs b (by simp)
    have hac := digit_not_colonComma hadig
    have hbc := digit_not_colonComma hbdig
    have hadot : a ≠ '.' := digit_ne_lit hadig (by decide)
    have hbdot : b ≠ '.' := digit_ne_lit hbdig (by decide)
    have pab : jsParseInt [a, b] = some ((valOfDigits [a, b] : ℤ)) :=
      jsParseInt_digits (by simp) (fun c hc => mem_pair_digit hadig hbdig hc)
    have hsplit : jsSplit isColonComma
        (a :: b :: ':' :: m1 :: m2 :: ':' :: s1 :: s2 :: ',' :: [x1, x2, x3]) =
        [[a, b], [m1, m2], [s1, s2], [x1, x2, x3]] := by
      simp [jsSplit, jsSplitAux, hac, hbc, hm1c, hm2c, hs1c, hs2c, hx1c, hx2c, hx3c, hcT, hmT]
    have hrepl : jsReplaceFirst '.' ','
        ([a, b] ++ ':' :: m1 :: m2 :: ':' :: s1 :: s2 :: sep :: [x1, x2, x3]) =
        [a, b] ++ ':' :: m1 :: m2 :: ':' :: s1 :: s2 :: ',' :: [x1, x2, x3] := by
      rcases hsep with h | h <;> subst h <;>
        simp [jsReplaceFirst, hadot, hbdot, hm1d, hm2d, hs1d, hs2d, hx1d, hx2d, hx3d]
    refine ⟨?_, ?_⟩
    · rcases hsep with h | h <;> subst h <;>
        simp [matchTsGroup, matchTsTail, hadig, hbdig, hm1, hm2, hs1, hs2, hx1, hx2, hx3]
    · rw [hrepl]
      simp [srtTimeToMs, hsplit, partToInt, pab, pmm, pss, pxx]

/-- Witness for C8 at the concrete accepted timestamp `01:02:03.004`. -/
theorem claim8_witness :
    srtTimeToMs (String.mk (jsReplaceFirst '.' ','
        (['0', '1'] ++ ':' :: '0' :: '2' :: ':' :: '0' :: '3' :: '.' :: ['0', '0', '4']))) =
      some 3723004 := by
  have h := claim8_time_conversion ['0', '1'] '0' '2' '0' '3' '0' '0' '4' '.'
    (Or.inr rfl) (by decide) (by decide) (by decide) (by decide) (by decide)
    (by decide) (by decide) (by decide) (Or.inl rfl)
  rw [h.2]
  decide

/-! ### Claim C9: lenient block skipping -/

lemma parseSRTAux_eq_filterMap :
    ∀ (bs : List (List Char)) (acc : List SRTSegment),
      parseSRTAux bs acc = acc.reverse ++ bs.filterMap segOfBlock
  | [], acc => by simp [parseSRTAux]
  | b :: bs, acc => by
    cases h : segOfBlock b with
    | none => simp [parseSRTAux, h, parseSRTAux_eq_filterMap bs acc]
    | some s =>
      simp [parseSRTAux, h, parseSRTAux_eq_filterMap bs (s :: acc)]

/-- C9: `parseSRT` is a total function that turns each block whose second
line holds a valid timestamp into exactly one segment and silently skips
every other block; when no block parses (in particular on empty or
entirely unparsable input) it returns the empty list instead of failing. -/
theorem claim9_skip_invalid_blocks (data : String) :
    parseSRT data = (blocksOf data).filterMap segOfBlock ∧
    ((∀ b ∈ blocksOf data, segOfBlock b = none) → parseSRT data = []) ∧
    parseSRT "" = [] := by
  refine ⟨?_, ?_, by decide⟩
  · simpa using parseSRTAux_eq_filterMap (blocksOf data) []
  · intro h
    have := parseSRTAux_eq_filterMap (blocksOf data) []
    simp [parseSRT, this, List.filterMap_eq_nil_iff]
    exact h

/-- Witness for C9 at a concrete unparsable input. -/
theorem claim9_witness : parseSRT "hello\nworld\n\nsecond block\nno timestamp" = [] :=
  (claim9_skip_invalid_blocks "hello\nworld\n\nsecond block\nno timestamp").2.1
    (by decide)

/-! ### Claim C6: crossfade suppression and clamping -/

/-- C6: in the filter chain of `createImageClip`, a fade-in appears iff
the scene is not the first (`index > 0`), a fade-out appears iff the
scene is not the last (`index < totalScenes - 1`, computed in ℤ as
JavaScript does), the fade-out always starts at
`max 0 (duration - CROSSFADE_DURATION)`, and when the crossfade fits in
the scene the fade window ends no later than the scene's own duration. -/
theorem claim6_fade_filters (index totalScenes : ℕ) (duration : ℚ) :
    ((∃ st d, VFilter.fadeIn st d ∈ clipFilters index totalScenes duration) ↔ 0 < index) ∧
    ((∃ st d, VFilter.fadeOut st d ∈ clipFilters index totalScenes duration) ↔
      (index : ℤ) < (totalScenes : ℤ) - 1) ∧
    (∀ st d, VFilter.fadeOut st d ∈ clipFilters index totalScenes duration →
      st = max 0 (duration - CROSSFADE_DURATION) ∧ d = CROSSFADE_DURATION) ∧
    (CROSSFADE_DURATION ≤ duration →
      fadeOutStartOf duration + CROSSFADE_DURATION ≤ duration) := by
  refine ⟨?_, ?_, ?_, ?_⟩
  · by_cases h1 : 0 < index <;>
      by_cases h2 : (index : ℤ) < (totalScenes : ℤ) - 1 <;>
      simp [clipFilters, h1, h2, fadeOutStartOf]
  · by_cases h1 : 0 < index <;>
      by_cases h2 : (index : ℤ) < (totalScenes : ℤ) - 1 <;>
      simp [clipFilters, h1, h2, fadeOutStartOf]
  · intro st d hmem
    by_cases h1 : 0 < index <;>
      by_cases h2 : (index : ℤ) < (totalScenes : ℤ) - 1 <;>
      simp [clipFilters, h1, h2, fadeOutStartOf] at hmem <;>
      simp [hmem, fadeOutStartOf]
  · intro hfit
    have : fadeOutStartOf duration = duration - CROSSFADE_DURATION := by
      apply max_eq_right
      linarith
    rw [this]
    linarith

/-- Witness for C6 at the middle scene of three, with a five-second
duration. -/
theorem claim6_witness :
    ((∃ st d, VFilter.fadeIn st d ∈ clipFilters 1 3 5) ↔ 0 < 1) ∧
    ((∃ st d, VFilter.fadeOut st d ∈ clipFilters 1 3 5) ↔ (1 : ℤ) < (3 : ℤ) - 1) ∧
    fadeOutStartOf 5 + CROSSFADE_DURATION ≤ 5 :=
  ⟨(claim6_fade_filters 1 3 5).1, (claim6_fade_filters 1 3 5).2.1,
   (claim6_fade_filters 1 3 5).2.2.2 (by norm_num [CROSSFADE_DURATION])⟩

/-! ### Claims C2 and C3: scene derivation -/

lemma scenePick_some {images : List String} (hne : images ≠ []) (i : ℕ) :
    ∃ img, scenePick images i = some img := by
  have hlast : ∃ x, images.getLast? = some x := by
    cases hl : images.getLast? with
    | none => exact absurd (List.getLast?_eq_none_iff.mp hl) hne
    | some x => exact ⟨x, rfl⟩
  obtain ⟨x, hx⟩ := hlast
  unfold scenePick
  cases h : images.get? i with
  | none => exact ⟨x, hx⟩
  | some s =>
    by_cases hs : s = ""
    · exact ⟨x, by simp [hs, hx]⟩
    · exact ⟨s, by simp [hs]⟩

lemma scenesGo_ok {images : List String} (hne : images ≠ []) (dir : String) :
    ∀ (segs : List SRTSegment) (i : ℕ),
      ∃ scs, scenesGo images dir i segs = .ok scs ∧
        scs.length = segs.length ∧
        ∀ k seg, segs.get? k = some seg →
          ∃ img, scenePick images (i + k) = some img ∧
            scs.get? k = some (sceneOfSeg dir img seg)
  | [], _ => ⟨[], rfl, rfl, by intro k seg h; simp at h⟩
  | item :: rest, i => by
    obtain ⟨img, himg⟩ := scenePick_some hne i
    obtain ⟨scs, hgo, hlen, hk⟩ := scenesGo_ok hne dir rest (i + 1)
    refine ⟨sceneOfSeg dir img item :: scs, ?_, by simp [hlen], ?_⟩
    · simp [scenesGo, himg, hgo]
    · intro k seg h
      cases k with
      | zero =>
        rw [List.get?_cons_zero] at h
        cases h
        exact ⟨img, by simpa using himg, by simp⟩
      | succ k2 =>
        rw [List.get?_cons_succ] at h
        obtain ⟨img2, h1, h2⟩ := hk k2 seg h
        refine ⟨img2, ?_, by simpa using h2⟩
        have he : i + (k2 + 1) = i + 1 + k2 := by omega
        rw [he]; exact h1

/-- C2 (amended): whenever the filtered image list is nonempty — or the
subtitle parses to no segments at all — `srtToScenes` returns exactly one
scene per parsed segment, in the same order, and the k-th scene carries
the converted start and end times and the text of the k-th segment.  (The
hypothesis is forced by `claim2_counterexample`: with at least one
segment and an empty image list the JavaScript function throws.) -/
theorem claim2_scene_per_segment (srtContent : String) (listing : List String)
    (imageDir : String)
    (h : sortedImages listing ≠ [] ∨ parseSRT srtContent = []) :
    ∃ scenes, srtToScenes srtContent listing imageDir = .ok scenes ∧
      scenes.length = (parseSRT srtContent).length ∧
      ∀ k seg, (parseSRT srtContent).get? k = some seg →
        ∃ s, scenes.get? k = some s ∧
          s.start_ms = srtTimeToMs seg.startTime ∧
          s.end_ms = srtTimeToMs seg.endTime ∧
          s.text = seg.text := by
  rcases h with hne | hempty
  · obtain ⟨scs, hgo, hlen, hk⟩ := scenesGo_ok hne imageDir (parseSRT srtContent) 0
    refine ⟨scs, hgo, hlen, ?_⟩
    intro k seg hkk
    obtain ⟨img, _, h2⟩ := hk k seg hkk
    exact ⟨sceneOfSeg imageDir img seg, h2, rfl, rfl, rfl⟩
  · refine ⟨[], ?_, by simp [hempty], ?_⟩
    · simp [srtToScenes, hempty, scenesGo]
    · intro k seg hkk
      rw [hempty] at hkk
      simp at hkk

/-- Counterexample to C2 as frozen: a subtitle with one parsed segment
and an image directory with no images makes `srtToScenes` throw a
TypeError (`path.join(imageDir, undefined)`) instead of returning one
scene per segment. -/
theorem claim2_counterexample :
    (parseSRT "1\n00:00:00,000 --> 00:00:02,000\nhi").length = 1 ∧
    srtToScenes "1\n00:00:00,000 --> 00:00:02,000\nhi" [] "imgs" =
      .error jsPathTypeError := by
  constructor
  · decide
  · rfl

/-- Witness for C2 (amended) at a concrete subtitle and listing. -/
theorem claim2_witness :
    ∃ scenes, srtToScenes srtOne ["1.png"] "imgs" = .ok scenes ∧
      scenes.length = (parseSRT srtOne).length := by
  obtain ⟨scenes, h1, h2, _⟩ :=
    claim2_scene_per_segment srtOne ["1.png"] "imgs" (Or.inl (by decide))
  exact ⟨scenes, h1, h2⟩

lemma mem_insertNat {y x : String} :
    ∀ {l : List String}, y ∈ insertNat x l → y = x ∨ y ∈ l
  | [], h => by simpa [insertNat] using h
  | z :: zs, h => by
    by_cases hc : naturalLE x z
    · simpa [insertNat, hc, List.mem_cons] using h
    · rw [insertNat, if_neg hc] at h
      rcases List.mem_cons.mp h with rfl | h2
      · exact Or.inr (List.mem_cons_self _ _)
      · rcases mem_insertNat h2 with h3 | h3
        · exact Or.inl h3
        · exact Or.inr (List.mem_cons_of_mem _ h3)

lemma mem_natSort {y : String} :
    ∀ {l : List String}, y ∈ natSort l → y ∈ l
  | [], h => by simp [natSort] at h
  | z :: zs, h => by
    rcases mem_insertNat (by simpa [natSort] using h) with rfl | h2
    · exact List.mem_cons_self _ _
    · exact List.mem_cons_of_mem _ (mem_natSort h2)

/-- The filtered image list never contains the empty string, so the
JavaScript truthiness test on `images[index]` only ever fails on an
out-of-range index. -/
lemma empty_not_mem_sortedImages (listing : List String) :
    "" ∉ sortedImages listing := by
  intro h
  have h2 : "" ∈ listing.filter isImageName := mem_natSort h
  have h3 : isImageName "" = true := (List.mem_filter.mp h2).2
  exact absurd h3 (by decide)

/-- With a nonempty image list free of empty strings, `scenePick` is:
the i-th image when in range, the last image otherwise. -/
lemma scenePick_eq {images : List String} (hne : images ≠ [])
    (hnb : "" ∉ images) (i : ℕ) :
    scenePick images i =
      some (if h : i < images.length then images.get ⟨i, h⟩ else images.getLast hne) := by
  unfold scenePick
  cases h : images.get? i with
  | none =>
    have hge : images.length ≤ i := by
      by_contra hlt
      push_neg at hlt
      rw [List.get?_eq_get hlt] at h
      cases h
    rw [dif_neg (by omega)]
    rw [List.getLast?_eq_getLast _ hne]
  | some s =>
    have hlt : i < images.length := (List.get?_eq_some.mp h).1
    have hmem : s ∈ images := List.get?_mem h
    have hs : s ≠ "" := by
      intro e; subst e; exact hnb hmem
    rw [List.get?_eq_get hlt] at h
    have hgs : images.get ⟨i, hlt⟩ = s := by injection h
    show (if s = "" then images.getLast? else some s) = _
    rw [if_neg hs, dif_pos hlt, hgs]

/-- C3 (amended): whenever the sorted image list is nonempty, an
image-count mismatch never fails the run: each scene whose index is in
range receives its own image, every overflow scene receives the last
image of the sorted list, and excess images are simply never referenced.
(The nonemptiness hypothesis is forced by `claim3_counterexample`: with
zero images and at least one segment the JavaScript function throws.) -/
theorem claim3_last_image_fallback (srtContent : String) (listing : List String)
    (imageDir : String) (hne : sortedImages listing ≠ []) :
    ∃ scenes, srtToScenes srtContent listing imageDir = .ok scenes ∧
      scenes.length = (parseSRT srtContent).length ∧
      ∀ k s, scenes.get? k = some s →
        (∀ hk : k < (sortedImages listing).length,
          s.image = pathJoin imageDir ((sortedImages listing).get ⟨k, hk⟩)) ∧
        ((sortedImages listing).length ≤ k →
          s.image = pathJoin imageDir ((sortedImages listing).getLast hne)) := by
  obtain ⟨scs, hgo, hlen, hk⟩ := scenesGo_ok hne imageDir (parseSRT srtContent) 0
  refine ⟨scs, hgo, hlen, ?_⟩
  intro k s hks
  have hklt : k < (parseSRT srtContent).length := by
    rw [← hlen]
    exact (List.get?_eq_some.mp hks).1
  obtain ⟨seg, hseg⟩ : ∃ seg, (parseSRT srtContent).get? k = some seg := by
    rw [List.get?_eq_get hklt]
    exact ⟨_, rfl⟩
  obtain ⟨img, hpick, hsc⟩ := hk k seg hseg
  rw [hks] at hsc
  cases hsc
  rw [zero_add] at hpick
  rw [scenePick_eq hne (empty_not_mem_sortedImages listing) k] at hpick
  constructor
  · intro hklt2
    rw [dif_pos hklt2] at hpick
    cases hpick
    rfl
  · intro hge
    rw [dif_neg (by omega)] at hpick
    cases hpick
    rfl

/-- Counterexample to C3 as frozen: with one parsed segment and a
directory listing containing no image files the sorted image list is
empty, there is no last image to substitute, and `srtToScenes` throws. -/
theorem claim3_counterexample :
    sortedImages ["notes.txt"] = [] ∧
    (parseSRT "1\n00:00:00,000 --> 00:00:01,000\na").length = 1 ∧
    srtToScenes "1\n00:00:00,000 --> 00:00:01,000\na" ["notes.txt"] "imgdir" =
      .error jsPathTypeError := by
  refine ⟨by decide, by decide, by rfl⟩

/-- Witness for C3 (amended): two segments, a single image, the overflow
scene reuses the last image. -/
theorem claim3_witness :
    ∃ scenes,
      srtToScenes "1\n00:00:00,000 --> 00:00:01,000\na\n\n2\n00:00:01,000 --> 00:00:02,000\nb"
        ["1.png"] "imgs" = .ok scenes ∧
      scenes.length =
        (parseSRT "1\n00:00:00,000 --> 00:00:01,000\na\n\n2\n00:00:01,000 --> 00:00:02,000\nb").length := by
  obtain ⟨scenes, h1, h2, _⟩ := claim3_last_image_fallback
    "1\n00:00:00,000 --> 00:00:01,000\na\n\n2\n00:00:01,000 --> 00:00:02,000\nb"
    ["1.png"] "imgs" (by decide)
  exact ⟨scenes, h1, h2⟩

/-! ### Claim C1: behaviour on zero parsed segments -/

/-- C1 (amended): when the subtitle parses to zero segments,
`createStoryVideo` makes no clip-synthesis call, but it does not fail
fast either: there is no "no renderable scenes" / ParseEmpty check, and
the run always proceeds to the external concatenation call on an empty
clip list (any failure then comes from that external call itself). -/
theorem claim1_empty_parse_reaches_concat (srtContent imageDir audioPath : String)
    (env : StoryEnv) (h : parseSRT srtContent = []) :
    (∀ i img, Act.call (ExtCall.clipRender i img) ∉
      (runStory srtContent imageDir audioPath env).1) ∧
    Act.call (ExtCall.concat 0) ∈ (runStory srtContent imageDir audioPath env).1 := by
  have hscenes : srtToScenes srtContent env.listing imageDir = .ok [] := by
    simp [srtToScenes, h, scenesGo]
  have hbody : storyBody srtContent imageDir audioPath env =
      (Act.emit { status := "parsing", message := "Parsing SRT and images...", progress := none } ::
        ([] : List Act) ++
        [Act.emit { status := "concatenating", message := "Merging clips", progress := some 60 },
         Act.call (ExtCall.concat 0)] ++
        (if env.concatOk = false then []
         else if env.fileExists audioPath = false then
          [Act.emit { status := "audio", message := "Adding audio...", progress := some 80 }]
         else if env.probeOk = false then
          [Act.emit { status := "audio", message := "Adding audio...", progress := some 80 },
           Act.call ExtCall.probeVideo]
         else
          [Act.emit { status := "audio", message := "Adding audio...", progress := some 80 },
           Act.call ExtCall.probeVideo, Act.call ExtCall.mux]),
       (storyBody srtContent imageDir audioPath env).2) := by
    unfold storyBody
    rw [hscenes]
    rcases h1 : env.concatOk <;> rcases h2 : env.fileExists audioPath <;>
      rcases h3 : env.probeOk <;> rcases h4 : env.muxOk <;>
        simp [clipLoop, h1, h2, h3, h4]
  unfold runStory
  rw [hbody]
  rcases hr : (storyBody srtContent imageDir audioPath env).2 with e | u <;>
    constructor <;>
    first
      | (intro i img
         rcases h1 : env.concatOk <;> rcases h2 : env.fileExists audioPath <;>
           rcases h3 : env.probeOk <;> simp [h1, h2, h3])
      | (rcases h1 : env.concatOk <;> rcases h2 : env.fileExists audioPath <;>
           rcases h3 : env.probeOk <;> simp [h1, h2, h3])

/-- Counterexample to C1 as frozen: with an empty subtitle (zero parsed
segments) and an all-succeeding environment, the run performs the
external concatenation call and even terminates successfully — it does
not fail with a ParseEmpty condition before external encoding work. -/
theorem claim1_counterexample :
    parseSRT "" = [] ∧
    Act.call (ExtCall.concat 0) ∈ (runStory "" "imgs" "audio.mp3" allOkStoryEnv).1 ∧
    (runStory "" "imgs" "audio.mp3" allOkStoryEnv).2 = .ok () := by
  refine ⟨by decide, by decide, by rfl⟩

/-- Witness for C1 (amended) at the empty subtitle input. -/
theorem claim1_witness :
    (∀ i img, Act.call (ExtCall.clipRender i img) ∉
      (runStory "" "imgs" "audio.mp3" allOkStoryEnv).1) ∧
    Act.call (ExtCall.concat 0) ∈ (runStory "" "imgs" "audio.mp3" allOkStoryEnv).1 :=
  claim1_empty_parse_reaches_concat "" "imgs" "audio.mp3" allOkStoryEnv (by decide)

/-! ### Claim C4: temp working directory removal -/

lemma clipLoop_no_rm (env : StoryEnv) (total : ℕ) :
    ∀ (rest : List Scene) (i : ℕ), Act.rmTemp ∉ (clipLoop env total i rest).1
  | [], _ => by simp [clipLoop]
  | scene :: rest, i => by
    have ih := clipLoop_no_rm env total rest (i + 1)
    unfold clipLoop createImageClip
    rcases h1 : env.fileExists scene.image <;> rcases h2 : env.clipOk i <;>
      simp [h1, h2, ih]

lemma storyBody_no_rm (srtContent imageDir audioPath : String) (env : StoryEnv) :
    Act.rmTemp ∉ (storyBody srtContent imageDir audioPath env).1 := by
  unfold storyBody
  rcases hs : srtToScenes srtContent env.listing imageDir with e | scenes
  · simp
  · dsimp only
    have hcl := clipLoop_no_rm env scenes.length scenes 0
    rcases hr : clipLoop env scenes.length 0 scenes with ⟨tr1, r1⟩
    rw [hr] at hcl
    rcases r1 with e | u
    · simpa using hcl
    · rcases h1 : env.concatOk <;> rcases h2 : env.fileExists audioPath <;>
        rcases h3 : env.probeOk <;> rcases h4 : env.muxOk <;>
          simp [h1, h2, h3, h4, hcl]

/-- C4: in every environment, a story run removes its temporary working
directory exactly once; on success the removal happens immediately
before the terminal done event (so never after it, and the directory is
never left behind on the happy path), and since the removal also happens
in every failing run, any failure deletes the directory as well. -/
theorem claim4_temp_dir_removed_once (srtContent imageDir audioPath : String)
    (env : StoryEnv) :
    (runStory srtContent imageDir audioPath env).1.count Act.rmTemp = 1 ∧
    ((runStory srtContent imageDir audioPath env).2 = .ok () →
      ∃ pre, (runStory srtContent imageDir audioPath env).1 =
        pre ++ [Act.rmTemp,
          Act.emit { status := "done", message := "Video created successfully!", progress := some 100 }] ∧
        Act.rmTemp ∉ pre) := by
  have hno := storyBody_no_rm srtContent imageDir audioPath env
  have hcount : (storyBody srtContent imageDir audioPath env).1.count Act.rmTemp = 0 :=
    List.count_eq_zero.mpr hno
  unfold runStory
  rcases hb : storyBody srtContent imageDir audioPath env with ⟨tr, r⟩
  rw [hb] at hno hcount
  rcases r with e | u
  · refine ⟨?_, ?_⟩
    · simp [List.count_append, hcount]
    · intro h
      simp at h
  · refine ⟨?_, ?_⟩
    · simp [List.count_append, hcount]
    · intro _
      refine ⟨tr ++ [Act.emit { status := "cleanup", message := "Cleaning up...", progress := some 95 }], ?_, ?_⟩
      · simp
      · intro hmem
        rcases List.mem_append.mp hmem with h | h
        · exact hno h
        · simp at h

/-- Witness for C4 at a concrete successful run. -/
theorem claim4_witness :
    (runStory srtOne "imgs" "audio.mp3" allOkStoryEnv).1.count Act.rmTemp = 1 ∧
    ∃ pre, (runStory srtOne "imgs" "audio.mp3" allOkStoryEnv).1 =
      pre ++ [Act.rmTemp,
        Act.emit { status := "done", message := "Video created successfully!", progress := some 100 }] ∧
      Act.rmTemp ∉ pre :=
  ⟨(claim4_temp_dir_removed_once srtOne "imgs" "audio.mp3" allOkStoryEnv).1,
   (claim4_temp_dir_removed_once srtOne "imgs" "audio.mp3" allOkStoryEnv).2 (by rfl)⟩

/-! ### Claim C7: mixed-media duration pinning -/

/-- C7: whenever the probe of the foreground narration track reports
duration `d`, the mixed pipeline's trace starts with that probe call,
the single encode invocation it then issues carries the explicit output
duration limit `-t d` (so the cut point is the probed duration, not the
shortest-stream heuristic), and both the visual input and the background
track are looped (`-loop 1` for a still image, `-stream_loop -1`
otherwise, and `-stream_loop -1` for the background). -/
theorem claim7_duration_pinned (o : MixedOptions) (env : MixedEnv) (d : ℚ)
    (h : env.probeResult = some d) :
    (runMixed o env).1.head? = some (Act.call ExtCall.probeMainAudio) ∧
    Act.call (ExtCall.mixRender (mixCommandOf o d)) ∈ (runMixed o env).1 ∧
    (mixCommandOf o d).durationLimit = d ∧
    (mixCommandOf o d).visualInputOpts =
      (if isImageInput o.inputPath then ["-loop", "1"] else ["-stream_loop", "-1"]) ∧
    (mixCommandOf o d).bgInputOpts = ["-stream_loop", "-1"] := by
  unfold runMixed
  rw [h]
  rcases hr : env.renderOk <;>
    simp [mixCommandOf, hr]

/-- Witness for C7 at a concrete mixed environment with probed
duration 30. -/
theorem claim7_witness :
    (runMixed mixOpts0 mixEnvAllOk).1.head? = some (Act.call ExtCall.probeMainAudio) ∧
    Act.call (ExtCall.mixRender (mixCommandOf mixOpts0 30)) ∈ (runMixed mixOpts0 mixEnvAllOk).1 ∧
    (mixCommandOf mixOpts0 30).durationLimit = 30 :=
  ⟨(claim7_duration_pinned mixOpts0 mixEnvAllOk 30 rfl).1,
   (claim7_duration_pinned mixOpts0 mixEnvAllOk 30 rfl).2.1,
   (claim7_duration_pinned mixOpts0 mixEnvAllOk 30 rfl).2.2.1⟩

/-! ### Claim C10: session upload directory lifetime -/

lemma rmSession_not_mem_fwdProgress (tr : List Act) :
    SAct.rmSession ∉ fwdProgress tr := by
  intro h
  obtain ⟨a, _, ha⟩ := List.mem_filterMap.mp h
  rcases a with p | c | _ <;> simp at ha

/-- C10: in every environment, each handler's trace either ends with a
single terminal error event and never removes the session's upload
directory (failing runs leave all uploaded assets in place), or ends
with the terminal `finished` event immediately followed by the one
removal of the session directory — so the upload directory is removed
only after a run completes successfully and its success event has been
emitted. -/
theorem claim10_session_dir_after_success (sessionId : String)
    (envS : SessionEnv) (envM : MixedSessionEnv) :
    ((∃ msg pre, storyHandler sessionId envS = pre ++ [SAct.errorEvt msg] ∧
        SAct.rmSession ∉ pre ++ [SAct.errorEvt msg]) ∨
     (∃ pre u f, storyHandler sessionId envS = pre ++ [SAct.finished u f, SAct.rmSession] ∧
        SAct.rmSession ∉ pre)) ∧
    ((∃ msg pre, mixedHandler sessionId envM = pre ++ [SAct.errorEvt msg] ∧
        SAct.rmSession ∉ pre ++ [SAct.errorEvt msg]) ∨
     (∃ pre u f, mixedHandler sessionId envM = pre ++ [SAct.finished u f, SAct.rmSession] ∧
        SAct.rmSession ∉ pre)) := by
  constructor
  · unfold storyHandler
    rcases h1 : envS.audioDirExists with _ | _
    · exact Or.inl ⟨_, [], rfl, by simp⟩
    rcases h2 : envS.srtDirExists with _ | _
    · exact Or.inl ⟨_, [], rfl, by simp⟩
    rcases h3 : envS.imageDirExists with _ | _
    · exact Or.inl ⟨_, [], rfl, by simp⟩
    by_cases h4 : envS.audioFiles.length = 0 ∨ envS.srtFiles.length = 0
    · rw [if_pos h4]
      exact Or.inl ⟨_, [], rfl, by simp⟩
    · rw [if_neg h4]
      dsimp only
      rcases hr : (runStory envS.srtContent
          (pathJoin (sessionDirOf sessionId) "images")
          (pathJoin (pathJoin (sessionDirOf sessionId) "audio") (envS.audioFiles.headD ""))
          envS.story) with ⟨tr, r⟩
      rcases r with e | u
      · refine Or.inl ⟨e, SAct.progress { status := "starting", message := "Initializing...", progress := none } ::
          fwdProgress tr, by simp, ?_⟩
        
        intro hmem
        rcases List.mem_append.mp hmem with hmem | hmem
        · rcases List.mem_cons.mp hmem with hmem | hmem
          · cases hmem
          · exact rmSession_not_mem_fwdProgress tr hmem
        · simp at hmem
      · refine Or.inr ⟨SAct.progress { status := "starting", message := "Initializing...", progress := none } ::
          fwdProgress tr, _, _, rfl, ?_⟩
        intro hmem
        rcases List.mem_cons.mp hmem with hmem | hmem
        · cases hmem
        · exact rmSession_not_mem_fwdProgress tr hmem
  · unfold mixedHandler
    by_cases h1 : envM.audioDirExists = false ∨ envM.audioFiles.length = 0
    · rw [if_pos h1]
      exact Or.inl ⟨_, [], rfl, by simp⟩
    rw [if_neg h1]
    by_cases h2 : envM.bgAudioDirExists = false ∨ envM.bgFiles.length = 0
    · rw [if_pos h2]
      exact Or.inl ⟨_, [], rfl, by simp⟩
    rw [if_neg h2]
    by_cases h3 : envM.visualDirExists = false ∨ envM.visualFiles.length = 0
    · rw [if_pos h3]
      exact Or.inl ⟨_, [], rfl, by simp⟩
    rw [if_neg h3]
    dsimp only
    rcases hr : runMixed
        { inputPath := pathJoin (pathJoin (sessionDirOf sessionId) "visual") (envM.visualFiles.headD "")
          mainAudioPath := pathJoin (pathJoin (sessionDirOf sessionId) "audio") (envM.audioFiles.headD "")
          bgAudioPath := pathJoin (pathJoin (sessionDirOf sessionId) "bgAudio") (envM.bgFiles.headD "")
          outputPath := pathJoin "output" ("mixed_" ++ sessionId ++ "_" ++ toString envM.timestamp ++ ".mp4")
          bgVolume := effBgVolume envM.bgVolumeParsed
          framerate := effFramerate envM.framerateParsed }
        envM.mixed with ⟨tr, r⟩
    rcases r with e | u
    · refine Or.inl ⟨e, SAct.progress { status := "starting", message := "Initializing Mix...", progress := none } ::
        fwdProgress tr, by simp, ?_⟩
      intro hmem
      rcases List.mem_append.mp hmem with hmem | hmem
      · rcases List.mem_cons.mp hmem with hmem | hmem
        · cases hmem
        · exact rmSession_not_mem_fwdProgress tr hmem
      · simp at hmem
    · refine Or.inr ⟨SAct.progress { status := "starting", message := "Initializing Mix...", progress := none } ::
        fwdProgress tr, _, _, rfl, ?_⟩
      intro hmem
      rcases List.mem_cons.mp hmem with hmem | hmem
      · cases hmem
      · exact rmSession_not_mem_fwdProgress tr hmem

/-- Witness for C10 at concrete all-passing environments (both handlers
succeed; the theorem then locates the removal right after `finished`). -/
theorem claim10_witness :
    ((∃ msg pre, storyHandler "s1" sessionEnvOk = pre ++ [SAct.errorEvt msg] ∧
        SAct.rmSession ∉ pre ++ [SAct.errorEvt msg]) ∨
     (∃ pre u f, storyHandler "s1" sessionEnvOk = pre ++ [SAct.finished u f, SAct.rmSession] ∧
        SAct.rmSession ∉ pre)) :=
  (claim10_session_dir_after_success "s1" sessionEnvOk mixedSessionEnvOk).1

/-! ### Claim C5: progress percent discipline -/

lemma percentsOf_append (l1 l2 : List Act) :
    percentsOf (l1 ++ l2) = percentsOf l1 ++ percentsOf l2 :=
  List.filterMap_append l1 l2 _

lemma clipLoop_percents (env : StoryEnv) (total : ℕ) :
    ∀ (rest : List Scene) (i : ℕ), ∃ k, k ≤ rest.length ∧
      percentsOf (clipLoop env total i rest).1 =
        (List.range' i k).map (fun j : ℕ => (j : ℚ) / (total : ℚ) * 50) ∧
      ((clipLoop env total i rest).2 = .ok () → k = rest.length)
  | [], i => ⟨0, by simp, by simp [clipLoop, percentsOf], fun _ => rfl⟩
  | scene :: rest, i => by
    obtain ⟨k, hk, hperc, hok⟩ := clipLoop_percents env total rest (i + 1)
    unfold clipLoop createImageClip
    rcases h1 : env.fileExists scene.image with _ | _
    · refine ⟨1, by simp, ?_, ?_⟩
      · simp [percentsOf, List.range'_succ]
      · intro h
        simp [h1] at h
    · rcases h2 : env.clipOk i with _ | _
      · refine ⟨1, by simp, ?_, ?_⟩
        · simp [percentsOf, List.range'_succ, h2]
        · intro h
          simp [h1, h2] at h
      · rcases hr : clipLoop env total (i + 1) rest with ⟨tr2, r2⟩
        rw [hr] at hperc hok
        simp only [percentsOf] at hperc
        refine ⟨k + 1, by simpa using hk, ?_, ?_⟩
        · simp only [h2, if_true, List.range'_succ]
          simp [percentsOf_append, percentsOf, hperc]
        · intro h
          simp [h1, h2] at h
          rw [hok h]
          simp

lemma storyBody_percents (srtContent imageDir audioPath : String) (env : StoryEnv) :
    ∃ n j, percentsOf (storyBody srtContent imageDir audioPath env).1 =
        (stdStoryPercents n).take j ∧
      ((storyBody srtContent imageDir audioPath env).2 = .ok () →
        percentsOf (storyBody srtContent imageDir audioPath env).1 =
          (List.range n).map (fun i : ℕ => (i : ℚ) / (n : ℚ) * 50) ++ [60, 80]) := by
  unfold storyBody
  rcases hs : srtToScenes srtContent env.listing imageDir with e | scenes
  · exact ⟨0, 0, by simp [percentsOf], by simp⟩
  · dsimp only
    obtain ⟨k, hk, hperc, hok⟩ := clipLoop_percents env scenes.length scenes 0
    rcases hr : clipLoop env scenes.length 0 scenes with ⟨tr1, r1⟩
    rw [hr] at hperc hok
    simp only [percentsOf] at hperc
    have hlen1 : ((List.range scenes.length).map
        (fun i : ℕ => (i : ℚ) / (scenes.length : ℚ) * 50)).length = scenes.length := by simp
    rcases r1 with e | u
    · refine ⟨scenes.length, k, ?_, by intro h; simp at h⟩
      rw [stdStoryPercents, List.take_append_of_le_length (by rw [hlen1]; exact hk),
        ← List.map_take, List.take_range]
      simp [percentsOf, hperc, List.range_eq_range', Nat.min_eq_left hk]
    · have hkn : k = scenes.length := hok rfl
      subst hkn
      rcases h1 : env.concatOk with _ | _
      · refine ⟨scenes.length, scenes.length + 1, ?_, by intro h; simp [h1] at h⟩
        rw [stdStoryPercents, show scenes.length + 1 = ((List.range scenes.length).map
            (fun i : ℕ => (i : ℚ) / (scenes.length : ℚ) * 50)).length + 1 by simp, List.take_append]
        simp [percentsOf_append, percentsOf, hperc, List.range_eq_range', h1]
      · rcases h2 : env.fileExists audioPath with _ | _
        · refine ⟨scenes.length, scenes.length + 2, ?_, by intro h; simp [h1, h2] at h⟩
          rw [stdStoryPercents, show scenes.length + 2 = ((List.range scenes.length).map
              (fun i : ℕ => (i : ℚ) / (scenes.length : ℚ) * 50)).length + 2 by simp, List.take_append]
          simp [percentsOf_append, percentsOf, hperc, List.range_eq_range', h1, h2]
        · rcases h3 : env.probeOk with _ | _
          · refine ⟨scenes.length, scenes.length + 2, ?_, by intro h; simp [h1, h2, h3] at h⟩
            rw [stdStoryPercents, show scenes.length + 2 = ((List.range scenes.length).map
                (fun i : ℕ => (i : ℚ) / (scenes.length : ℚ) * 50)).length + 2 by simp, List.take_append]
            simp [percentsOf_append, percentsOf, hperc, List.range_eq_range', h1, h2, h3]
          · rcases h4 : env.muxOk with _ | _
            · refine ⟨scenes.length, scenes.length + 2, ?_, by intro h; simp [h1, h2, h3, h4] at h⟩
              rw [stdStoryPercents, show scenes.length + 2 = ((List.range scenes.length).map
                  (fun i : ℕ => (i : ℚ) / (scenes.length : ℚ) * 50)).length + 2 by simp, List.take_append]
              simp [percentsOf_append, percentsOf, hperc, List.range_eq_range', h1, h2, h3, h4]
            · refine ⟨scenes.length, scenes.length + 2, ?_, ?_⟩
              · rw [stdStoryPercents, show scenes.length + 2 = ((List.range scenes.length).map
                    (fun i : ℕ => (i : ℚ) / (scenes.length : ℚ) * 50)).length + 2 by simp, List.take_append]
                simp [percentsOf_append, percentsOf, hperc, List.range_eq_range', h1, h2, h3, h4]
              · intro _
                simp [percentsOf_append, percentsOf, hperc, List.range_eq_range', h1, h2, h3, h4]

lemma runStory_percents (srtContent imageDir audioPath : String) (env : StoryEnv) :
    ∃ n j, percentsOf (runStory srtContent imageDir audioPath env).1 =
        (stdStoryPercents n).take j ∧
      ((runStory srtContent imageDir audioPath env).2 = .ok () →
        percentsOf (runStory srtContent imageDir audioPath env).1 = stdStoryPercents n) := by
  obtain ⟨n, j, hp, hfull⟩ := storyBody_percents srtContent imageDir audioPath env
  unfold runStory
  rcases hb : storyBody srtContent imageDir audioPath env with ⟨tr, r⟩
  rw [hb] at hp hfull
  rcases r with e | u
  · refine ⟨n, j, ?_, by intro h; simp at h⟩
    rw [percentsOf_append]
    simpa [percentsOf] using hp
  · refine ⟨n, (stdStoryPercents n).length, ?_, ?_⟩
    · rw [List.take_length, percentsOf_append, hfull rfl, stdStoryPercents]
      simp [percentsOf]
    · intro _
      rw [percentsOf_append, hfull rfl, stdStoryPercents]
      simp [percentsOf]

lemma clip_percent_upper {n j : ℕ} (hj : j < n) :
    (j : ℚ) / (n : ℚ) * 50 ≤ 50 := by
  have hn : 0 < (n : ℚ) := by exact_mod_cast Nat.pos_of_ne_zero (by omega)
  have h1 : (j : ℚ) / (n : ℚ) ≤ 1 := by
    rw [div_le_one hn]
    exact_mod_cast le_of_lt hj
  nlinarith

lemma stdStoryPercents_pairwise (n : ℕ) : (stdStoryPercents n).Pairwise (· ≤ ·) := by
  rw [stdStoryPercents, List.pairwise_append]
  refine ⟨?_, ?_, ?_⟩
  · rw [List.pairwise_map]
    refine (List.pairwise_lt_range n).imp ?_
    intro a b hab
    have h1 : (a : ℚ) ≤ (b : ℚ) := by exact_mod_cast le_of_lt hab
    have h2 : (0 : ℚ) ≤ (n : ℚ) := by positivity
    have h3 : (a : ℚ) / (n : ℚ) ≤ (b : ℚ) / (n : ℚ) := div_le_div_of_nonneg_right h1 h2
    nlinarith
  · decide
  · intro a ha b hb
    obtain ⟨j, hj, rfl⟩ := List.mem_map.mp ha
    have hjn : j < n := List.mem_range.mp hj
    have h50 := clip_percent_upper hjn
    fin_cases hb <;> linarith

lemma stdStoryPercents_bounds (n : ℕ) :
    ∀ p ∈ stdStoryPercents n, 0 ≤ p ∧ p ≤ 100 := by
  intro p hp
  rw [stdStoryPercents] at hp
  rcases List.mem_append.mp hp with h | h
  · obtain ⟨j, hj, rfl⟩ := List.mem_map.mp h
    have hjn : j < n := List.mem_range.mp hj
    have h50 := clip_percent_upper hjn
    constructor
    · positivity
    · linarith
  · fin_cases h <;> norm_num

lemma stdStoryPercents_last (n : ℕ) : (stdStoryPercents n).getLast? = some 100 := by
  rw [stdStoryPercents, List.getLast?_append]
  rfl

lemma renderEvents_percents (reported : List (Option ℚ)) :
    percentsOf (renderEvents reported) =
      (truthyReported reported).map (fun p => 10 + p * (85 / 100)) := by
  induction reported with
  | nil => rfl
  | cons po rest ih =>
    cases po with
    | none => simpa [renderEvents, truthyReported, percentsOf] using ih
    | some p =>
      by_cases hp : p = 0
      · simpa [renderEvents, truthyReported, percentsOf, hp] using ih
      · simp only [renderEvents, truthyReported, percentsOf, List.filterMap_cons, hp] at ih ⊢
        simp [hp, ih]

lemma runMixed_percents (o : MixedOptions) (env : MixedEnv) :
    (env.probeResult = none → percentsOf (runMixed o env).1 = []) ∧
    (∀ d, env.probeResult = some d →
      percentsOf (runMixed o env).1 =
        10 :: ((truthyReported env.reported).map (fun p => 10 + p * (85 / 100)) ++
          (if env.renderOk then [100] else []))) := by
  constructor
  · intro h
    simp [runMixed, h, percentsOf]
  · intro d h
    unfold runMixed
    rw [h]
    rcases hr : env.renderOk <;>
      simp [percentsOf_append, percentsOf, hr] <;>
      exact renderEvents_percents env.reported

/-- C5 (amended): story runs emit percents that are always within
[0,100] and monotonically non-decreasing, with a successful run's final
percent equal to 100, unconditionally.  Mixed runs forward the external
encoder's raw percent signal scaled by `10 + p * 0.85`, so the same
discipline holds provided the encoder-reported percents are themselves
within [0,100] and non-decreasing (the correction forced by
`claim5_counterexample`: the code does not clamp or order the reported
values). -/
theorem claim5_percent_discipline :
    (∀ (srtContent imageDir audioPath : String) (env : StoryEnv),
      List.Chain' (· ≤ ·) (percentsOf (runStory srtContent imageDir audioPath env).1) ∧
      (∀ p ∈ percentsOf (runStory srtContent imageDir audioPath env).1, 0 ≤ p ∧ p ≤ 100) ∧
      ((runStory srtContent imageDir audioPath env).2 = .ok () →
        (percentsOf (runStory srtContent imageDir audioPath env).1).getLast? = some 100)) ∧
    (∀ (o : MixedOptions) (env : MixedEnv),
      List.Chain' (· ≤ ·) (truthyReported env.reported) →
      (∀ p ∈ truthyReported env.reported, 0 ≤ p ∧ p ≤ 100) →
      List.Chain' (· ≤ ·) (percentsOf (runMixed o env).1) ∧
      (∀ p ∈ percentsOf (runMixed o env).1, 0 ≤ p ∧ p ≤ 100) ∧
      (∀ s, (runMixed o env).2 = .ok s →
        (percentsOf (runMixed o env).1).getLast? = some 100)) := by
  constructor
  · intro srtContent imageDir audioPath env
    obtain ⟨n, j, hp, hfull⟩ := runStory_percents srtContent imageDir audioPath env
    refine ⟨?_, ?_, ?_⟩
    · rw [hp]
      exact List.Pairwise.chain'
        (List.Pairwise.sublist (List.take_sublist j _) (stdStoryPercents_pairwise n))
    · intro p hpm
      rw [hp] at hpm
      exact stdStoryPercents_bounds n p (List.mem_of_mem_take hpm)
    · intro h
      rw [hfull h]
      exact stdStoryPercents_last n
  · intro o env hchain hbound
    cases hpr : env.probeResult with
    | none =>
      have hnil := (runMixed_percents o env).1 hpr
      refine ⟨by rw [hnil]; exact List.chain'_nil, ?_, ?_⟩
      · intro p hpm
        rw [hnil] at hpm
        exact absurd hpm (List.not_mem_nil p)
      · intro s hs
        simp [runMixed, hpr] at hs
    | some d =>
      have hP := (runMixed_percents o env).2 d hpr
      have hpairM : (truthyReported env.reported).Pairwise (· ≤ ·) :=
        List.chain'_iff_pairwise.mp hchain
      have hmono : ∀ {a b : ℚ}, a ≤ b → 10 + a * (85 / 100) ≤ 10 + b * (85 / 100) := by
        intro a b hab
        nlinarith
      have hmemM : ∀ q ∈ (truthyReported env.reported).map (fun p => 10 + p * (85 / 100)),
          10 ≤ q ∧ q ≤ 95 := by
        intro q hq
        obtain ⟨p, hpmem, rfl⟩ := List.mem_map.mp hq
        obtain ⟨h0, h100⟩ := hbound p hpmem
        constructor <;> nlinarith
      have hpair : (10 :: ((truthyReported env.reported).map (fun p => 10 + p * (85 / 100)) ++
          (if env.renderOk then [100] else []))).Pairwise (· ≤ ·) := by
        rw [List.pairwise_cons]
        constructor
        · intro b hb
          rcases List.mem_append.mp hb with hb | hb
          · exact (hmemM b hb).1
          · rcases hrOk : env.renderOk <;> rw [hrOk] at hb <;> simp at hb
            rw [hb]
            norm_num
        · rw [List.pairwise_append]
          refine ⟨?_, ?_, ?_⟩
          · rw [List.pairwise_map]
            exact hpairM.imp (fun hab => hmono hab)
          · rcases hrOk : env.renderOk <;> simp
          · intro a ha b hb
            rcases hrOk : env.renderOk <;> rw [hrOk] at hb <;> simp at hb
            rw [hb]
            have := (hmemM a ha).2
            linarith
      refine ⟨by rw [hP]; exact hpair.chain', ?_, ?_⟩
      · intro p hpm
        rw [hP] at hpm
        rcases List.mem_cons.mp hpm with rfl | hpm
        · norm_num
        · rcases List.mem_append.mp hpm with hpm | hpm
          · obtain ⟨h10, h95⟩ := hmemM p hpm
            constructor <;> linarith
          · rcases hrOk : env.renderOk <;> rw [hrOk] at hpm <;> simp at hpm
            rw [hpm]
            norm_num
      · intro s hs
        have hrOk : env.renderOk = true := by
          rcases hr : env.renderOk
          · simp [runMixed, hpr, hr] at hs
          · rfl
        rw [hP, hrOk]
        rw [show (10 : ℚ) :: ((truthyReported env.reported).map (fun p => 10 + p * (85 / 100)) ++
            (if true then [100] else [])) =
          ((10 : ℚ) :: (truthyReported env.reported).map (fun p => 10 + p * (85 / 100))) ++ [100] by
            simp]
        rw [List.getLast?_append]
        rfl

/-- Counterexample to C5 as frozen: when the external encoder reports a
percent of 120 during a mixed run (fluent-ffmpeg derives percent from a
duration estimate and can overshoot), the emitted percent sequence is
[10, 112, 100]: the 112 exceeds the claimed [0,100] range and the
sequence is not monotone. -/
theorem claim5_counterexample :
    percentsOf (runMixed mixOpts0 mixEnvBad).1 = [10, 112, 100] ∧
    ¬ (∀ p ∈ percentsOf (runMixed mixOpts0 mixEnvBad).1, p ≤ 100) ∧
    ¬ List.Chain' (· ≤ ·) (percentsOf (runMixed mixOpts0 mixEnvBad).1) := by
  have h : percentsOf (runMixed mixOpts0 mixEnvBad).1 = [10, 112, 100] := by
    have hP := (runMixed_percents mixOpts0 mixEnvBad).2 30 rfl
    rw [hP]
    norm_num [truthyReported, mixEnvBad, List.filterMap_cons]
  refine ⟨h, ?_, ?_⟩
  · intro hall
    have := hall 112 (by rw [h]; simp)
    norm_num at this
  · intro hchain
    rw [h] at hchain
    rcases hchain with _ | ⟨_, hchain⟩
    rcases hchain with _ | ⟨hle, _⟩
    norm_num at hle

/-- Witness for C5 (amended) at concrete runs: the all-succeeding story
environment and a mixed environment whose encoder reports 40 then 80. -/
theorem claim5_witness :
    (List.Chain' (· ≤ ·) (percentsOf (runStory srtOne "imgs" "a.mp3" allOkStoryEnv).1) ∧
      (runStory srtOne "imgs" "a.mp3" allOkStoryEnv).2 = .ok ()) ∧
    List.Chain' (· ≤ ·) (percentsOf (runMixed mixOpts0 mixEnvAllOk).1) := by
  have ht : truthyReported mixEnvAllOk.reported = [40, 80] := by
    norm_num [truthyReported, mixEnvAllOk, List.filterMap_cons]
  refine ⟨⟨(claim5_percent_discipline.1 srtOne "imgs" "a.mp3" allOkStoryEnv).1, by rfl⟩,
    (claim5_percent_discipline.2 mixOpts0 mixEnvAllOk ?_ ?_).1⟩
  · rw [ht]
    exact List.chain'_cons.mpr ⟨by norm_num, List.chain'_singleton _⟩
  · rw [ht]
    intro p hp
    rcases List.mem_cons.mp hp with rfl | hp
    · norm_num
    · rcases List.mem_cons.mp hp with rfl | hp
      · norm_num
      · exact absurd hp (List.not_mem_nil p)
